import Mathlib

/-!
Shallow embedding of the `abb` composable-allocator library.

Every definition below is translated from the C++ headers under
`include/abb/`.  Machine pointers and sizes (`void*`, `size_t`) are both
modelled as `Nat`; the null pointer is the address `0`, and 64-bit wrap-around
is made explicit with `% W` (`W = 2 ^ 64`) at the places where the C++
arithmetic can actually wrap (`round_to_alignment`, `affix_allocator`'s
block stripping and the `pow2_range_raider`'s index computation; pointer
arithmetic past the address space is undefined behaviour in C++, so pointer
comparisons stay on `Nat`).  Memory contents are not modelled:
a state records only the allocator bookkeeping (cursors, free lists, node
lists), which is what the claims are about.

Fallible or potentially undefined behaviour (out-of-bounds bucket indexing,
placement-new on a null pointer) is modelled with `Option`: `none` marks an
execution the C++ code does not define.
-/

namespace abb

/-- Width of `size_t` / pointers: the C++ code targets 64-bit platforms. -/
def W : Nat := 2 ^ 64

/-- Two's-complement (`size_t`) subtraction `a - b` modulo `2 ^ 64`,
for operands already reduced modulo `W`. -/
def sub64 (a b : Nat) : Nat := (a + (W - b % W)) % W

/-- `abb::block` (block.hpp): the universal `(pointer, size)` currency.
`ptr = 0` plays the role of `nullptr`. -/
structure block where
  ptr : Nat
  size : Nat
deriving DecidableEq, Repr

/-- The `nullblock` macro: `block{nullptr, 0}`. -/
def nullblock : block := ⟨0, 0⟩

/-- `abb::round_to_alignment` (block.hpp): the whole computation is carried
out in `size_t`, so the addition wraps modulo `2 ^ 64` — e.g.
`round_to_alignment(SIZE_MAX, 8) = 0`. -/
def round_to_alignment (size alignment : Nat) : Nat :=
  (size + (if size % alignment = 0 then 0 else alignment - size % alignment))
    % W

/-- The compile-time interface every `_Allocator` template parameter offers:
the member functions of the allocator contract together with the static
constants `alignment` and `supports_truncated_deallocation`.  `Option`-valued
results propagate undefined behaviour of an operation. -/
structure allocator_ops (σ : Type) where
  alignment : Nat
  supports_truncated_deallocation : Bool
  allocate : σ → Nat → Option (block × σ)
  deallocate : σ → block → Option σ
  owns : σ → block → Option Bool
  reallocate : σ → block → Nat → Option (Bool × block × σ)
  deallocateAll : σ → Option σ

/-- `abb::handle_common_reallocation_cases` (reallocation_helpers.hpp),
instantiated with the calling allocator's own `deallocate`/`allocate` and its
static `alignment`.  The outer `Option` is undefined behaviour; the inner
`Option` is `some (b', a')` when one of the three fast paths handled the call
(the C++ function returned `true`) and `none` when it returned `false`. -/
def handle_common_reallocation_cases {α : Type}
    (alignment : Nat)
    (deallocate : α → block → Option α)
    (allocate : α → Nat → Option (block × α))
    (a : α) (b : block) (newSize : Nat) : Option (Option (block × α)) :=
  if b.size = round_to_alignment newSize alignment then
    some (some (b, a))
  else if newSize = 0 then
    (deallocate a b).map fun a2 => some (b, a2)
  else if b.ptr = 0 then
    (allocate a newSize).map fun p => some p
  else
    some none

/-- `abb::reallocate_and_copy` (reallocation_helpers.hpp) for the common case
where the source and destination allocator are the same object.  The `memcpy`
of `min(old, new)` bytes is not represented (byte contents are outside the
state model). -/
def reallocate_and_copy {α : Type}
    (allocate : α → Nat → Option (block × α))
    (deallocate : α → block → Option α)
    (a : α) (b : block) (newSize : Nat) : Option (Bool × block × α) := do
  let p ← allocate a newSize
  if p.1.ptr = 0 then
    some (false, b, p.2)
  else
    (deallocate p.2 b).map fun a2 => (true, p.1, a2)

/-! ## Primitive leaves -/

namespace mallocator

/-- `mallocator::alignment = 8_B`. -/
def alignment : Nat := 8

/-- `mallocator::allocate` (mallocator.hpp): `block{ malloc(size), size }`.
The system heap is a parameter `malloc : Nat → Nat` returning the address of
the new storage, or `0` for failure. -/
def allocate (malloc : Nat → Nat) (size : Nat) : block :=
  ⟨malloc size, size⟩

end mallocator

/-- `abb::null_allocator` (null_allocator.hpp) packaged as `allocator_ops`
over the trivial state.  It has no `deallocateAll`, so that field is `none`
(calling it would not compile in C++). -/
def null_ops : allocator_ops Unit where
  alignment := 8
  supports_truncated_deallocation := false
  allocate := fun s _ => some (nullblock, s)
  deallocate := fun s _ => some s
  owns := fun _ b => some (decide (b.ptr = 0))
  reallocate := fun s b _ => some (decide (b.ptr = 0), b, s)
  deallocateAll := fun _ => none

/-! ## Linear arena (linear_allocator.hpp) -/

/-- The state of a `linear_allocator`: its buffer provider (`buffer_` start
address and `size()`) together with the bump pointer `p_`. -/
structure linear_state where
  base : Nat
  bufSize : Nat
  cur : Nat
deriving DecidableEq, Repr

namespace linear_allocator

/-- `linear_allocator::isLastAllocatedBlock`. -/
def isLastAllocatedBlock (s : linear_state) (b : block) : Bool :=
  decide (b.ptr + b.size = s.cur)

/-- `linear_allocator::allocate`. -/
def allocate (alignment : Nat) (s : linear_state) (size : Nat) :
    block × linear_state :=
  let alignedSize := round_to_alignment size alignment
  if s.cur + alignedSize ≤ s.base + s.bufSize then
    (⟨s.cur, alignedSize⟩, ⟨s.base, s.bufSize, s.cur + alignedSize⟩)
  else
    (nullblock, s)

/-- `linear_allocator::deallocate`: rewind only the last allocated block. -/
def deallocate (s : linear_state) (b : block) : linear_state :=
  if isLastAllocatedBlock s b then ⟨s.base, s.bufSize, b.ptr⟩ else s

/-- `linear_allocator::owns`. -/
def owns (s : linear_state) (b : block) : Bool :=
  decide (s.base ≤ b.ptr ∧ b.ptr < s.base + s.bufSize)

/-- `linear_allocator::deallocateAll`. -/
def deallocateAll (s : linear_state) : linear_state :=
  ⟨s.base, s.bufSize, s.base⟩

/-- `linear_allocator::reallocate`. -/
def reallocate (alignment : Nat) (s : linear_state) (b : block)
    (newSize : Nat) : Option (Bool × block × linear_state) :=
  match handle_common_reallocation_cases alignment
      (fun s b => some (deallocate s b))
      (fun s n => some (allocate alignment s n)) s b newSize with
  | none => none
  | some (some p) => some (true, p.1, p.2)
  | some none =>
    let alignedNewSize := round_to_alignment newSize alignment
    if isLastAllocatedBlock s b then
      if b.ptr + alignedNewSize ≤ s.base + s.bufSize then
        some (true, b, ⟨s.base, s.bufSize, b.ptr + alignedNewSize⟩)
      else
        some (false, b, s)
    else if alignedNewSize ≤ b.size then
      some (true, b, s)
    else
      reallocate_and_copy (fun s n => some (allocate alignment s n))
        (fun s b => some (deallocate s b)) s b newSize

end linear_allocator

/-- The linear arena as an `allocator_ops` instance
(`supports_truncated_deallocation = true`). -/
def linear_ops (alignment : Nat) : allocator_ops linear_state where
  alignment := alignment
  supports_truncated_deallocation := true
  allocate := fun s n => some (linear_allocator.allocate alignment s n)
  deallocate := fun s b => some (linear_allocator.deallocate s b)
  owns := fun s b => some (linear_allocator.owns s b)
  reallocate := linear_allocator.reallocate alignment
  deallocateAll := fun s => some (linear_allocator.deallocateAll s)

/-! ## Bit helpers and range raiders (bit_helpers.hpp, range_helpers.hpp) -/

namespace details

/-- `abb::details::last_bit_set` (bit_helpers.hpp):
`v ? 1 + last_bit_set(v >> 1) : 0`. -/
def last_bit_set (v : Nat) : Nat :=
  if h : v = 0 then 0 else 1 + last_bit_set (v / 2)
decreasing_by exact Nat.div_lt_self (Nat.pos_of_ne_zero h) Nat.one_lt_two

end details

/-- `abb::is_pow2`: `(v > 0) && ((v & (v - 1)) == 0)`. -/
def is_pow2 (v : Nat) : Bool :=
  decide (0 < v) && decide (v &&& (v - 1) = 0)

/-- `abb::last_bit_set`: `v ? details::last_bit_set(v) - 1 : 0`. -/
def last_bit_set (v : Nat) : Nat :=
  if v ≠ 0 then details.last_bit_set v - 1 else 0

/-- `abb::next_pow2`: `is_pow2(v) ? v : 1 << (last_bit_set(v) + 1)`. -/
def next_pow2 (v : Nat) : Nat :=
  if is_pow2 v then v else 2 ^ (last_bit_set v + 1)

/-- `abb::DynamicValues::invalid_index = std::numeric_limits<size_t>::max()`. -/
def invalid_index : Nat := W - 1

namespace linear_range_raider

/-- `linear_range_raider::num_steps = (_Max - _Min) / _Step`. -/
def num_steps (Min Max Step : Nat) : Nat := (Max - Min) / Step

/-- `linear_range_raider::step_index` (range_helpers.hpp):
`is_in_range(val) ? (val - _Min) / _Step : invalid_index`. -/
def step_index (Min Max Step val : Nat) : Nat :=
  if Min ≤ val ∧ val ≤ Max then (val - Min) / Step else invalid_index

end linear_range_raider

namespace pow2_range_raider

/-- `pow2_range_raider::num_steps = pow2bit_max_index - pow2bit_min_index`. -/
def num_steps (Min Max : Nat) : Nat := last_bit_set Max - last_bit_set Min

/-- `pow2_range_raider::step_index` (range_helpers.hpp):
`last_bit_set(next_pow2(val)) - pow2bit_min_index - 1` in `size_t`
arithmetic, so the two subtractions can wrap modulo `2 ^ 64`. -/
def step_index (Min val : Nat) : Nat :=
  sub64 (sub64 (last_bit_set (next_pow2 val)) (last_bit_set Min)) 1

end pow2_range_raider

/-! ## Free-list (freelist.hpp) -/

/-- The runtime parameters of a `freelist` instantiation: `_Range` bounds
(`min_size()` / `max_size()`), `_MaxNodeCount` and `_BatchedAllocations`. -/
structure freelist_params where
  min_size : Nat
  max_size : Nat
  maxNodeCount : Nat
  batchedAllocations : Nat
deriving DecidableEq, Repr

/-- The state of a `freelist`: the inherited inner allocator, the in-place
singly-linked list `pHead_` (as the list of node addresses, head first) and
`currentNodeCount_`. -/
structure freelist_state (σ : Type) where
  inner : σ
  pHead : List Nat
  currentNodeCount : Nat
deriving DecidableEq, Repr

namespace freelist

/-- The one-by-one fallback loop of `freelist::tryPopulateFreeList`: allocate
`max_size` blocks and push each, stopping at the first failure. -/
def populate_singles {σ : Type} (I : allocator_ops σ) (blockSize : Nat) :
    Nat → freelist_state σ → Option (freelist_state σ)
  | 0, s => some s
  | Nat.succ n, s => do
    let p ← I.allocate s.inner blockSize
    if p.1.ptr ≠ 0 then
      populate_singles I blockSize n
        ⟨p.2, p.1.ptr :: s.pHead, s.currentNodeCount + 1⟩
    else
      some ⟨p.2, s.pHead, s.currentNodeCount⟩

/-- `freelist::tryPopulateFreeList`: batched carving when the inner allocator
supports truncated deallocation, one-by-one allocations otherwise (or when
the batch allocation failed).  Pushing nodes `i = 0, …, numBlocks-1` in order
leaves the node for the highest offset at the head. -/
def tryPopulateFreeList {σ : Type} (I : allocator_ops σ) (P : freelist_params)
    (s : freelist_state σ) : Option (freelist_state σ) :=
  let blockSize := P.max_size
  let numBlocks := Nat.min P.batchedAllocations
    (P.maxNodeCount - s.currentNodeCount)
  if I.supports_truncated_deallocation then do
    let p ← I.allocate s.inner (numBlocks * blockSize)
    if p.1.ptr ≠ 0 then
      some ⟨p.2,
        ((List.range numBlocks).reverse.map fun i => p.1.ptr + i * blockSize)
          ++ s.pHead,
        s.currentNodeCount + numBlocks⟩
    else
      populate_singles I blockSize numBlocks ⟨p.2, s.pHead, s.currentNodeCount⟩
  else
    populate_singles I blockSize numBlocks s

/-- `freelist::allocate`: in-range sizes are served from the list (populating
it first when empty) and always come back with size `max_size()`; everything
else, including the case where the list could not be populated, falls through
to the inner allocator with the aligned size. -/
def allocate {σ : Type} (I : allocator_ops σ) (P : freelist_params)
    (s : freelist_state σ) (size : Nat) : Option (block × freelist_state σ) :=
  let alignedSize := round_to_alignment size I.alignment
  if P.min_size ≤ alignedSize ∧ alignedSize ≤ P.max_size then
    Option.bind (if s.pHead.isEmpty then tryPopulateFreeList I P s else some s)
      fun s1 =>
        match s1.pHead with
        | ptr :: rest =>
          some (⟨ptr, P.max_size⟩, ⟨s1.inner, rest, s1.currentNodeCount - 1⟩)
        | [] =>
          (I.allocate s1.inner alignedSize).map fun p =>
            (p.1, ⟨p.2, [], s1.currentNodeCount⟩)
  else
    (I.allocate s.inner alignedSize).map fun p =>
      (p.1, ⟨p.2, s.pHead, s.currentNodeCount⟩)

/-- `freelist::deallocate`: recycle a `max_size()` block while the list is
below `_MaxNodeCount`, otherwise hand it to the inner allocator. -/
def deallocate {σ : Type} (I : allocator_ops σ) (P : freelist_params)
    (s : freelist_state σ) (b : block) : Option (freelist_state σ) :=
  if s.currentNodeCount ≠ P.maxNodeCount ∧ b.size = P.max_size then
    some ⟨s.inner, b.ptr :: s.pHead, s.currentNodeCount + 1⟩
  else
    (I.deallocate s.inner b).map fun inner2 =>
      ⟨inner2, s.pHead, s.currentNodeCount⟩

/-- `freelist::reallocate`: shared fast paths, then in-range aligned sizes
succeed with no effect at all, everything else goes through
`reallocate_and_copy`. -/
def reallocate {σ : Type} (I : allocator_ops σ) (P : freelist_params)
    (s : freelist_state σ) (b : block) (newSize : Nat) :
    Option (Bool × block × freelist_state σ) :=
  match handle_common_reallocation_cases I.alignment (deallocate I P)
      (allocate I P) s b newSize with
  | none => none
  | some (some p) => some (true, p.1, p.2)
  | some none =>
    let alignedNewSize := round_to_alignment newSize I.alignment
    if P.min_size ≤ alignedNewSize ∧ alignedNewSize ≤ P.max_size then
      some (true, b, s)
    else
      reallocate_and_copy (allocate I P) (deallocate I P) s b newSize

end freelist

/-! ## Bucketizer (bucketizer.hpp)

A `bucketizer<_Allocator, _RangeRaider>` holds `num_steps` bucket allocators.
It is modelled generically: `I` is the bucket allocator's interface, `rmin`
and `rmax` the raider's range, `stepIndex` the raider's `step_index`, and the
bucket array `buckets_` is a `List σ`.  C++ indexes the array with whatever
`step_index` returns; an out-of-bounds index is undefined behaviour, `none`
here. -/

namespace bucketizer

/-- `bucketizer::allocate`. -/
def allocate {σ : Type} (I : allocator_ops σ) (rmin rmax : Nat)
    (stepIndex : Nat → Nat) (buckets : List σ) (size : Nat) :
    Option (block × List σ) :=
  if rmin ≤ size ∧ size ≤ rmax then
    let idx := stepIndex size
    if h : idx < buckets.length then
      (I.allocate (buckets.get ⟨idx, h⟩) size).map fun p =>
        (p.1, buckets.set idx p.2)
    else
      none
  else
    some (nullblock, buckets)

/-- `bucketizer::deallocate`. -/
def deallocate {σ : Type} (I : allocator_ops σ) (rmin rmax : Nat)
    (stepIndex : Nat → Nat) (buckets : List σ) (b : block) :
    Option (List σ) :=
  if rmin ≤ b.size ∧ b.size ≤ rmax then
    let idx := stepIndex b.size
    if h : idx < buckets.length then
      (I.deallocate (buckets.get ⟨idx, h⟩) b).map fun s2 => buckets.set idx s2
    else
      none
  else
    some buckets

/-- `bucketizer::owns`. -/
def owns {σ : Type} (I : allocator_ops σ) (rmin rmax : Nat)
    (stepIndex : Nat → Nat) (buckets : List σ) (b : block) : Option Bool :=
  if rmin ≤ b.size ∧ b.size ≤ rmax then
    let idx := stepIndex b.size
    if h : idx < buckets.length then
      I.owns (buckets.get ⟨idx, h⟩) b
    else
      none
  else
    some false

/-- `bucketizer::reallocate`: note that the `isGoodSize(newSize)` range check
runs *before* `handle_common_reallocation_cases`. -/
def reallocate {σ : Type} (I : allocator_ops σ) (rmin rmax : Nat)
    (stepIndex : Nat → Nat) (buckets : List σ) (b : block) (newSize : Nat) :
    Option (Bool × block × List σ) :=
  if ¬ (rmin ≤ newSize ∧ newSize ≤ rmax) then
    some (false, b, buckets)
  else
    match handle_common_reallocation_cases I.alignment
        (deallocate I rmin rmax stepIndex)
        (allocate I rmin rmax stepIndex) buckets b newSize with
    | none => none
    | some (some p) => some (true, p.1, p.2)
    | some none =>
      let oldBucketIndex := stepIndex b.size
      let newBucketIndex := stepIndex newSize
      if oldBucketIndex = newBucketIndex then
        if h : newBucketIndex < buckets.length then
          (I.reallocate (buckets.get ⟨newBucketIndex, h⟩) b newSize).map
            fun r => (r.1, r.2.1, buckets.set newBucketIndex r.2.2)
        else
          none
      else
        -- reallocate_and_copy(buckets_[oldBucketIndex], buckets_[newBucketIndex], b, newSize)
        if h : newBucketIndex < buckets.length then do
          let p ← I.allocate (buckets.get ⟨newBucketIndex, h⟩) newSize
          let buckets1 := buckets.set newBucketIndex p.2
          if p.1.ptr = 0 then
            some (false, b, buckets1)
          else
            if h2 : oldBucketIndex < buckets1.length then
              (I.deallocate (buckets1.get ⟨oldBucketIndex, h2⟩) b).map
                fun s2 => (true, p.1, buckets1.set oldBucketIndex s2)
            else
              none
        else
          none

end bucketizer

/-! ## Segregator (segregator.hpp) -/

namespace segregator

/-- `segregator::allocate`: requests of at most `_Threshold` bytes go to the
small allocator, the rest to the large one. -/
def allocate {σ₁ σ₂ : Type} (I1 : allocator_ops σ₁) (I2 : allocator_ops σ₂)
    (threshold : Nat) (s1 : σ₁) (s2 : σ₂) (size : Nat) :
    Option (block × σ₁ × σ₂) :=
  if size ≤ threshold then
    (I1.allocate s1 size).map fun p => (p.1, p.2, s2)
  else
    (I2.allocate s2 size).map fun p => (p.1, s1, p.2)

/-- `segregator::deallocate`: dispatch on the block's recorded size. -/
def deallocate {σ₁ σ₂ : Type} (I1 : allocator_ops σ₁) (I2 : allocator_ops σ₂)
    (threshold : Nat) (s1 : σ₁) (s2 : σ₂) (b : block) : Option (σ₁ × σ₂) :=
  if b.size ≤ threshold then
    (I1.deallocate s1 b).map fun s1b => (s1b, s2)
  else
    (I2.deallocate s2 b).map fun s2b => (s1, s2b)

/-- `segregator::owns`: dispatch on the block's recorded size. -/
def owns {σ₁ σ₂ : Type} (I1 : allocator_ops σ₁) (I2 : allocator_ops σ₂)
    (threshold : Nat) (s1 : σ₁) (s2 : σ₂) (b : block) : Option Bool :=
  if b.size ≤ threshold then I1.owns s1 b else I2.owns s2 b

/-- `segregator::reallocate`: shared fast paths (with
`alignment = const_max(small, large)`), then the four quadrants decided by
comparing `b.size` and `newSize` against `_Threshold`. -/
def reallocate {σ₁ σ₂ : Type} (I1 : allocator_ops σ₁) (I2 : allocator_ops σ₂)
    (threshold : Nat) (s1 : σ₁) (s2 : σ₂) (b : block) (newSize : Nat) :
    Option (Bool × block × σ₁ × σ₂) :=
  match handle_common_reallocation_cases (Nat.max I1.alignment I2.alignment)
      (fun p b => deallocate I1 I2 threshold p.1 p.2 b)
      (fun p n => allocate I1 I2 threshold p.1 p.2 n)
      (s1, s2) b newSize with
  | none => none
  | some (some p) => some (true, p.1, p.2)
  | some none =>
    if b.size ≤ threshold then
      if newSize ≤ threshold then
        (I1.reallocate s1 b newSize).map fun r => (r.1, r.2.1, r.2.2, s2)
      else do
        -- reallocate_and_copy<_SmallAllocator, _LargeAllocator>
        let p ← I2.allocate s2 newSize
        if p.1.ptr = 0 then
          some (false, b, s1, p.2)
        else
          (I1.deallocate s1 b).map fun s1b => (true, p.1, s1b, p.2)
    else
      if newSize ≤ threshold then do
        -- reallocate_and_copy<_LargeAllocator, _SmallAllocator>
        let p ← I1.allocate s1 newSize
        if p.1.ptr = 0 then
          some (false, b, p.2, s2)
        else
          (I2.deallocate s2 b).map fun s2b => (true, p.1, p.2, s2b)
      else
        (I2.reallocate s2 b newSize).map fun r => (r.1, r.2.1, s1, r.2.2)

end segregator

/-! ## Cascading allocator (cascading_allocator.hpp) -/

/-- A `cascading_allocator::node`: the inner allocator it embeds together
with the address of the block (allocated from that same allocator) that the
node itself lives in. -/
structure cascading_node (σ : Type) where
  allocator : σ
  addr : Nat
deriving DecidableEq, Repr

namespace cascading_allocator

/-- `cascading_allocator::eraseNode` applied to a suffix of the node list:
child nodes are erased first, then each node is moved to the stack and
deallocates its own storage block (of size `nodeAllocatedSize_`) from its own
inner allocator, which is then destroyed. -/
def eraseNodes {σ : Type} (I : allocator_ops σ) (nodeAllocatedSize : Nat) :
    List (cascading_node σ) → Option Unit
  | [] => some ()
  | n :: rest => do
    let _ ← eraseNodes I nodeAllocatedSize rest
    let _ ← I.deallocate n.allocator ⟨n.addr, nodeAllocatedSize⟩
    some ()

/-- `cascading_allocator::deallocateAll`: nothing on an empty list; otherwise
erase the tail, move the head to the stack, reset its inner allocator with
`deallocateAll`, re-allocate `sizeof(node)` bytes (`nodeSize`) from it and
move the node into that block.  `new (nullptr) node(...)`, reached when that
allocation fails, is undefined behaviour. -/
def deallocateAll {σ : Type} (I : allocator_ops σ)
    (nodeAllocatedSize nodeSize : Nat) :
    List (cascading_node σ) → Option (List (cascading_node σ))
  | [] => some []
  | head :: tail => do
    let _ ← eraseNodes I nodeAllocatedSize tail
    let inner1 ← I.deallocateAll head.allocator
    let p ← I.allocate inner1 nodeSize
    if p.1.ptr = 0 then
      none
    else
      some [⟨p.2, p.1.ptr⟩]

end cascading_allocator

/-! ## Affix allocator (affix_allocator.hpp)

`prefix_size` and `suffix_size` are the affix sizes already rounded to the
inner allocator's alignment (`pre` and `suf` below).  The block arithmetic is
`size_t` / pointer arithmetic, hence performed modulo `2 ^ 64`: when the
inner allocator returns the null block, `toStrippedBlock` wraps around. -/

namespace affix_allocator

/-- `affix_allocator::toAffixedBlock`. -/
def toAffixedBlock (pre suf : Nat) (strippedBlock : block) : block :=
  ⟨sub64 strippedBlock.ptr pre, (pre + strippedBlock.size + suf) % W⟩

/-- `affix_allocator::toStrippedBlock`:
`{ affixed.ptr + prefix_size, affixed.size - prefix_size - suffix_size }`. -/
def toStrippedBlock (pre suf : Nat) (affixedBlock : block) : block :=
  ⟨(affixedBlock.ptr + pre) % W, sub64 (sub64 affixedBlock.size pre) suf⟩

/-- `affix_allocator::allocate`: ask the inner allocator for
`prefix_size + size + suffix_size` bytes and strip the result —
unconditionally, with no null check on the inner block. -/
def allocate {σ : Type} (I : allocator_ops σ) (pre suf : Nat) (s : σ)
    (size : Nat) : Option (block × σ) :=
  (I.allocate s ((pre + size + suf) % W)).map fun p =>
    (toStrippedBlock pre suf p.1, p.2)

/-- `affix_allocator::deallocate`. -/
def deallocate {σ : Type} (I : allocator_ops σ) (pre suf : Nat) (s : σ)
    (strippedBlock : block) : Option σ :=
  I.deallocate s (toAffixedBlock pre suf strippedBlock)

/-- `affix_allocator::owns`. -/
def owns {σ : Type} (I : allocator_ops σ) (pre suf : Nat) (s : σ)
    (strippedBlock : block) : Option Bool :=
  I.owns s (toAffixedBlock pre suf strippedBlock)

end affix_allocator

/-! ## Basic arithmetic lemmas about the helpers -/

theorem round_to_alignment_lt_W (size alignment : Nat) :
    round_to_alignment size alignment < W := by
  rw [round_to_alignment]
  exact Nat.mod_lt _ (by rw [W]; exact Nat.two_pow_pos 64)

/-- As long as `size + alignment` stays within `size_t`, the wrapping
`round_to_alignment` agrees with the unbounded rounding. -/
theorem round_to_alignment_no_wrap (size alignment : Nat) (h0 : 0 < alignment)
    (h : size + alignment ≤ W) :
    round_to_alignment size alignment
      = size + (if size % alignment = 0 then 0
          else alignment - size % alignment) := by
  have hlt := Nat.mod_lt size h0
  rw [round_to_alignment]
  apply Nat.mod_eq_of_lt
  by_cases hz : size % alignment = 0
  · rw [if_pos hz]
    omega
  · rw [if_neg hz]
    omega

theorem le_round_to_alignment (size alignment : Nat) (h0 : 0 < alignment)
    (h : size + alignment ≤ W) :
    size ≤ round_to_alignment size alignment := by
  rw [round_to_alignment_no_wrap size alignment h0 h]
  exact Nat.le_add_right _ _

theorem round_to_alignment_mod (size alignment : Nat) (h0 : 0 < alignment)
    (h : size + alignment ≤ W) :
    round_to_alignment size alignment % alignment = 0 := by
  rw [round_to_alignment_no_wrap size alignment h0 h]
  by_cases hz : size % alignment = 0
  · simp [hz]
  · have hle := Nat.mod_le size alignment
    have hlt := Nat.mod_lt size h0
    have heq : size + (if size % alignment = 0 then 0
        else alignment - size % alignment)
        = alignment * (size / alignment) + alignment := by
      have hdm := Nat.div_add_mod size alignment
      simp only [if_neg hz]
      omega
    rw [heq, ← Nat.mul_succ]
    exact Nat.mul_mod_right _ _

theorem round_to_alignment_eq_of_mod (size alignment : Nat)
    (h : size % alignment = 0) (hsize : size < W) :
    round_to_alignment size alignment = size := by
  rw [round_to_alignment, if_pos h, Nat.add_zero]
  exact Nat.mod_eq_of_lt hsize

theorem round_to_alignment_idem (size alignment : Nat) (h0 : 0 < alignment)
    (h : size + alignment ≤ W) :
    round_to_alignment (round_to_alignment size alignment) alignment
      = round_to_alignment size alignment :=
  round_to_alignment_eq_of_mod _ _ (round_to_alignment_mod size alignment h0 h)
    (round_to_alignment_lt_W size alignment)

theorem sub64_eq_sub (x y : Nat) (hy : y ≤ x) (hx : x < W) :
    sub64 x y = x - y := by
  simp only [sub64, W] at hx ⊢
  omega

/-! ## C1: allocate postconditions -/

/-- Reachable-state invariant of a `freelist` over a linear arena: every
recycled node address lies inside the arena's buffer. -/
def nodes_in_buffer (fs : freelist_state linear_state) : Prop :=
  ∀ p ∈ fs.pHead, fs.inner.base ≤ p ∧ p < fs.inner.base + fs.inner.bufSize

theorem populate_singles_linear_inv (A blockSize : Nat) (hbs : 0 < blockSize)
    (hA : 0 < A) (hWA : blockSize + A ≤ W) :
    ∀ (n : Nat) (s s2 : freelist_state linear_state),
      freelist.populate_singles (linear_ops A) blockSize n s = some s2 →
      nodes_in_buffer s → s.inner.base ≤ s.inner.cur →
      nodes_in_buffer s2 ∧ s2.inner.base = s.inner.base
        ∧ s2.inner.bufSize = s.inner.bufSize ∧ s2.inner.base ≤ s2.inner.cur := by
  intro n
  induction n with
  | zero =>
    intro s s2 h hnodes hle
    simp only [freelist.populate_singles, Option.some.injEq] at h
    subst h
    exact ⟨hnodes, rfl, rfl, hle⟩
  | succ n ih =>
    intro s s2 h hnodes hle
    simp only [freelist.populate_singles, linear_ops, Option.bind_eq_bind, Option.some_bind] at h
    by_cases hfit : s.inner.cur + round_to_alignment blockSize A
        ≤ s.inner.base + s.inner.bufSize
    · simp only [linear_allocator.allocate, if_pos hfit] at h
      by_cases hz : s.inner.cur = 0
      · simp only [hz, ne_eq, not_true_eq_false, if_false, if_neg,
          Option.some.injEq, not_not] at h
        subst h
        refine ⟨?_, rfl, rfl, ?_⟩
        · intro p hp
          simpa using hnodes p hp
        · show s.inner.base ≤ 0 + round_to_alignment blockSize A
          omega
      · simp only [ne_eq, hz, not_false_eq_true, if_true, if_pos] at h
        have hcurlt : s.inner.cur < s.inner.base + s.inner.bufSize := by
          have := le_round_to_alignment blockSize A hA hWA
          omega
        have hrec := ih _ _ h ?_ ?_
        · obtain ⟨h1, h2, h3, h4⟩ := hrec
          exact ⟨by simpa using h1, by simpa using h2, by simpa using h3, h4⟩
        · intro p hp
          simp only [List.mem_cons] at hp
          rcases hp with hp | hp
          · subst hp
            exact ⟨hle, hcurlt⟩
          · simpa using hnodes p hp
        · simp only
          have := le_round_to_alignment blockSize A hA hWA
          omega
    · simp only [linear_allocator.allocate, if_neg hfit, nullblock, ne_eq,
        not_true_eq_false, if_false, if_neg, Option.some.injEq, not_not] at h
      subst h
      exact ⟨fun p hp => hnodes p hp, rfl, rfl, hle⟩

theorem tryPopulate_linear_inv (A : Nat) (P : freelist_params)
    (hbs : 0 < P.max_size) (hA : 0 < A) (hWA : P.max_size + A ≤ W)
    (hWB : P.batchedAllocations * P.max_size + A ≤ W)
    (s s2 : freelist_state linear_state)
    (h : freelist.tryPopulateFreeList (linear_ops A) P s = some s2)
    (hnodes : nodes_in_buffer s) (hle : s.inner.base ≤ s.inner.cur) :
    nodes_in_buffer s2 ∧ s2.inner.base = s.inner.base
      ∧ s2.inner.bufSize = s.inner.bufSize ∧ s2.inner.base ≤ s2.inner.cur := by
  simp only [freelist.tryPopulateFreeList, linear_ops, if_true,
    Option.bind_eq_bind, Option.some_bind] at h
  set numBlocks := Nat.min P.batchedAllocations
    (P.maxNodeCount - s.currentNodeCount) with hnb
  have hWN : numBlocks * P.max_size + A ≤ W := by
    have hmono : numBlocks * P.max_size ≤ P.batchedAllocations * P.max_size :=
      Nat.mul_le_mul_right _ (Nat.min_le_left _ _)
    omega
  by_cases hfit : s.inner.cur + round_to_alignment (numBlocks * P.max_size) A
      ≤ s.inner.base + s.inner.bufSize
  · simp only [linear_allocator.allocate, if_pos hfit] at h
    by_cases hz : s.inner.cur = 0
    · simp only [hz, ne_eq, not_true_eq_false, if_false, if_neg, not_not] at h
      have h2 := populate_singles_linear_inv A P.max_size hbs hA hWA numBlocks _ _ h
        (by intro p hp; simpa using hnodes p hp) (by simp; omega)
      simpa using h2
    · simp only [ne_eq, hz, not_false_eq_true, if_true, if_pos,
        Option.some.injEq] at h
      subst h
      refine ⟨?_, rfl, rfl, ?_⟩
      · intro p hp
        simp only [List.mem_append, List.mem_map, List.mem_reverse,
          List.mem_range] at hp
        rcases hp with ⟨i, hi, hpi⟩ | hp
        · subst hpi
          constructor
          · simp only
            omega
          · simp only
            have hlt : i * P.max_size + P.max_size ≤ numBlocks * P.max_size :=
              by
              have : i + 1 ≤ numBlocks := hi
              calc i * P.max_size + P.max_size = (i + 1) * P.max_size := by ring
                _ ≤ numBlocks * P.max_size := Nat.mul_le_mul_right _ this
            have := le_round_to_alignment (numBlocks * P.max_size) A hA hWN
            omega
        · have := hnodes p hp
          simpa using this
      · simp only
        omega
  · simp only [linear_allocator.allocate, if_neg hfit, nullblock, ne_eq,
      not_true_eq_false, if_false, if_neg, not_not] at h
    have h2 := populate_singles_linear_inv A P.max_size hbs hA hWA numBlocks _ _ h
      (by intro p hp; simpa using hnodes p hp) (by simpa using hle)
    simpa using h2

theorem linear_allocate_success (A : Nat) (s : linear_state) (m : Nat)
    (b : block) (s2 : linear_state)
    (h : linear_allocator.allocate A s m = (b, s2)) (hb : b.ptr ≠ 0) :
    b.ptr = s.cur ∧ b.size = round_to_alignment m A
      ∧ s2 = ⟨s.base, s.bufSize, s.cur + round_to_alignment m A⟩
      ∧ s.cur + round_to_alignment m A ≤ s.base + s.bufSize := by
  rw [linear_allocator.allocate] at h
  by_cases hfit : s.cur + round_to_alignment m A ≤ s.base + s.bufSize
  · simp only [if_pos hfit, Prod.mk.injEq] at h
    exact ⟨by rw [← h.1], by rw [← h.1], by rw [← h.2], hfit⟩
  · simp only [if_neg hfit, Prod.mk.injEq] at h
    rw [← h.1] at hb
    simp [nullblock] at hb

theorem freelist_allocate_linear_post (A : Nat) (hA : 0 < A)
    (P : freelist_params) (hmax : 0 < P.max_size)
    (hWA : P.max_size + A ≤ W)
    (hWB : P.batchedAllocations * P.max_size + A ≤ W)
    (fs : freelist_state linear_state)
    (hnodes : nodes_in_buffer fs) (hle : fs.inner.base ≤ fs.inner.cur)
    (n : Nat) (hn : 0 < n) (hWn : n + A ≤ W)
    (b : block) (fs2 : freelist_state linear_state)
    (h : freelist.allocate (linear_ops A) P fs n = some (b, fs2))
    (hb : b.ptr ≠ 0) :
    n ≤ b.size ∧ linear_allocator.owns fs2.inner b = true := by
  have hal : n ≤ round_to_alignment n A := le_round_to_alignment n A hA hWn
  simp only [freelist.allocate, linear_ops] at h
  by_cases hgood : P.min_size ≤ round_to_alignment n A
      ∧ round_to_alignment n A ≤ P.max_size
  · rw [if_pos hgood, Option.bind_eq_some] at h
    obtain ⟨s1, hs1, hrest⟩ := h
    have hinv : nodes_in_buffer s1 ∧ s1.inner.base ≤ s1.inner.cur := by
      by_cases hemp : fs.pHead.isEmpty
      · rw [if_pos hemp] at hs1
        have := tryPopulate_linear_inv A P hmax hA hWA hWB fs s1 hs1 hnodes hle
        exact ⟨this.1, this.2.2.2⟩
      · rw [if_neg hemp, Option.some.injEq] at hs1
        subst hs1
        exact ⟨hnodes, hle⟩
    cases hl : s1.pHead with
    | cons ptr rest =>
      rw [hl] at hrest
      rw [Option.some.injEq, Prod.mk.injEq] at hrest
      obtain ⟨hbe, hfe⟩ := hrest
      have hmem : ptr ∈ s1.pHead := by
        rw [hl]
        exact List.mem_cons_self ptr rest
      have hbound := hinv.1 ptr hmem
      constructor
      · rw [← hbe]
        exact hal.trans hgood.2
      · rw [← hfe, ← hbe]
        simp only [linear_allocator.owns, decide_eq_true_eq]
        exact hbound
    | nil =>
      rw [hl] at hrest
      simp only [Option.map_some', Option.some.injEq, Prod.mk.injEq] at hrest
      obtain ⟨hbe, hfe⟩ := hrest
      obtain ⟨hptr, hsize, hst, hfit⟩ := linear_allocate_success A s1.inner
        (round_to_alignment n A)
        (linear_allocator.allocate A s1.inner (round_to_alignment n A)).1
        (linear_allocator.allocate A s1.inner (round_to_alignment n A)).2
        rfl (by rw [hbe]; exact hb)
      have hidem := round_to_alignment_idem n A hA hWn
      rw [hidem] at hsize hfit
      constructor
      · rw [← hbe, hsize]
        exact hal
      · rw [← hfe, ← hbe]
        show linear_allocator.owns
          (linear_allocator.allocate A s1.inner (round_to_alignment n A)).2
          (linear_allocator.allocate A s1.inner (round_to_alignment n A)).1
            = true
        rw [hst]
        simp only [linear_allocator.owns, decide_eq_true_eq]
        rw [hptr]
        refine ⟨hinv.2, ?_⟩
        omega
  · rw [if_neg hgood] at h
    simp only [Option.map_some', Option.some.injEq, Prod.mk.injEq] at h
    obtain ⟨hbe, hfe⟩ := h
    obtain ⟨hptr, hsize, hst, hfit⟩ := linear_allocate_success A fs.inner
      (round_to_alignment n A)
      (linear_allocator.allocate A fs.inner (round_to_alignment n A)).1
      (linear_allocator.allocate A fs.inner (round_to_alignment n A)).2
      rfl (by rw [hbe]; exact hb)
    have hidem := round_to_alignment_idem n A hA hWn
    rw [hidem] at hsize hfit
    constructor
    · rw [← hbe, hsize]
      exact hal
    · rw [← hfe, ← hbe]
      show linear_allocator.owns
        (linear_allocator.allocate A fs.inner (round_to_alignment n A)).2
        (linear_allocator.allocate A fs.inner (round_to_alignment n A)).1
          = true
      rw [hst]
      simp only [linear_allocator.owns, decide_eq_true_eq]
      rw [hptr]
      refine ⟨hle, ?_⟩
      omega

/-- C1 (amended): for the linear arena and every request `n ≥ 1` whose
rounding cannot wrap in `size_t` (`n + alignment ≤ 2 ^ 64`; near `SIZE_MAX`
the aligned size wraps to 0 and the arena returns a non-null zero-size
block), a non-null result satisfies all four advertised postconditions
(`size ≥ n`, `size mod alignment = 0`, `ptr mod alignment = 0`, `owns`); the
mallocator returns `size = n` exactly — which is at least `n` and, with an
8-aligned system heap, gives `ptr mod 8 = 0`, but `size mod 8 = 0` only when
`8 ∣ n`; the free-list (over a linear arena, with its `max` and batch sizes
also below the wrap bound) returns a non-null block of size at least `n`
owned by its inner arena. -/
theorem C1_amended_allocate_postconditions
    (A : Nat) (hA : 0 < A) (s : linear_state)
    (hcur : s.cur % A = 0) (hle : s.base ≤ s.cur) (n : Nat) (hn : 0 < n)
    (hWn : n + A ≤ W)
    (malloc : Nat → Nat) (hmalloc : ∀ m, malloc m % 8 = 0)
    (P : freelist_params) (hmax : 0 < P.max_size)
    (hWA : P.max_size + A ≤ W)
    (hWB : P.batchedAllocations * P.max_size + A ≤ W)
    (fs : freelist_state linear_state)
    (hnodes : nodes_in_buffer fs) (hfle : fs.inner.base ≤ fs.inner.cur) :
    (∀ b s2, linear_allocator.allocate A s n = (b, s2) → b.ptr ≠ 0 →
        n ≤ b.size ∧ b.size % A = 0 ∧ b.ptr % A = 0
          ∧ linear_allocator.owns s2 b = true)
    ∧ ((mallocator.allocate malloc n).size = n
        ∧ (mallocator.allocate malloc n).ptr % 8 = 0)
    ∧ (∀ b fs2, freelist.allocate (linear_ops A) P fs n = some (b, fs2) →
        b.ptr ≠ 0 → n ≤ b.size ∧ linear_allocator.owns fs2.inner b = true) := by
  refine ⟨?_, ⟨rfl, hmalloc n⟩, ?_⟩
  · intro b s2 h hb
    obtain ⟨hptr, hsize, hst, hfit⟩ := linear_allocate_success A s n b s2 h hb
    have hrle := le_round_to_alignment n A hA hWn
    refine ⟨?_, ?_, ?_, ?_⟩
    · rw [hsize]
      exact hrle
    · rw [hsize]
      exact round_to_alignment_mod n A hA hWn
    · rw [hptr]
      exact hcur
    · rw [hst]
      simp only [linear_allocator.owns, decide_eq_true_eq]
      rw [hptr]
      refine ⟨hle, ?_⟩
      omega
  · intro b fs2 h hb
    exact freelist_allocate_linear_post A hA P hmax hWA hWB fs hnodes hfle
      n hn hWn b fs2 h hb

/-- C1 counterexample: the claim as stated is false.  The mallocator's
`allocate(3)` (with an 8-aligned heap address) returns a non-null block of
size 3, and `3 mod 8 ≠ 0`; the linear arena's `allocate(0)` on a full arena
returns a non-null zero-sized block that `owns` rejects; and the arena's
`allocate(SIZE_MAX)` rounds the size to 0 in `size_t`, passes the space
check, and returns a non-null block of size `0 < SIZE_MAX`. -/
theorem C1_counterexample :
    ((mallocator.allocate (fun _ => 16) 3).ptr ≠ 0
      ∧ ¬ (mallocator.allocate (fun _ => 16) 3).size % mallocator.alignment = 0)
    ∧ ((linear_allocator.allocate 8 ⟨1000, 128, 1128⟩ 0).1.ptr ≠ 0
      ∧ linear_allocator.owns (linear_allocator.allocate 8 ⟨1000, 128, 1128⟩ 0).2
          (linear_allocator.allocate 8 ⟨1000, 128, 1128⟩ 0).1 = false)
    ∧ ((linear_allocator.allocate 8 ⟨1000, 128, 1000⟩ (W - 1)).1.ptr ≠ 0
      ∧ (linear_allocator.allocate 8 ⟨1000, 128, 1000⟩ (W - 1)).1.size = 0
      ∧ ¬ W - 1 ≤ (linear_allocator.allocate 8 ⟨1000, 128, 1000⟩ (W - 1)).1.size) := by
  decide

theorem C1_witness :
    16 ≤ (linear_allocator.allocate 8 ⟨1000, 128, 1000⟩ 16).1.size
    ∧ (mallocator.allocate (fun _ => 64) 16).ptr % 8 = 0 := by
  have h := C1_amended_allocate_postconditions 8 (by decide) ⟨1000, 128, 1000⟩
    (by decide) (by decide) 16 (by decide) (by decide) (fun _ => 64)
    (fun _ => by simp) ⟨16, 64, 8, 4⟩ (by decide) (by decide) (by decide)
    ⟨⟨2000, 256, 2000⟩, [], 0⟩ (by intro p hp; simp at hp) (by decide)
  exact ⟨(h.1 (linear_allocator.allocate 8 ⟨1000, 128, 1000⟩ 16).1
    (linear_allocator.allocate 8 ⟨1000, 128, 1000⟩ 16).2 rfl (by decide)).1,
    h.2.1.2⟩

/-! ## C2: the reallocate contract and the free-list's in-range fast path -/

/-- C2 (amended): when none of the shared fast paths applies and the aligned
new size lies inside `[min, max]`, the free-list's `reallocate` returns
`true` while leaving both the block and the allocator state completely
untouched — even when the block's current size is smaller than the requested
`newSize` (no hypothesis below relates `b.size` and `newSize`), so a `true`
return does not guarantee a block of at least `newSize` bytes. -/
theorem C2_amended_freelist_reallocate {σ : Type} (I : allocator_ops σ)
    (P : freelist_params) (s : freelist_state σ) (b : block) (newSize : Nat)
    (h1 : b.size ≠ round_to_alignment newSize I.alignment)
    (h2 : newSize ≠ 0) (h3 : b.ptr ≠ 0)
    (h4 : P.min_size ≤ round_to_alignment newSize I.alignment)
    (h5 : round_to_alignment newSize I.alignment ≤ P.max_size) :
    freelist.reallocate I P s b newSize = some (true, b, s) := by
  rw [freelist.reallocate, handle_common_reallocation_cases,
    if_neg h1, if_neg h2, if_neg h3]
  simp only
  rw [if_pos ⟨h4, h5⟩]

/-- C2 counterexample: a block of 8 bytes obtained through the free-list's
inner allocator, reallocated to 32 bytes with `[min, max] = [16, 64]`:
`reallocate` returns `true` yet the block still records only 8 bytes. -/
theorem C2_counterexample :
    freelist.reallocate (linear_ops 8) ⟨16, 64, 8, 4⟩
        ⟨⟨1000, 1000, 1000⟩, [], 0⟩ ⟨4096, 8⟩ 32
      = some (true, ⟨4096, 8⟩, ⟨⟨1000, 1000, 1000⟩, [], 0⟩)
    ∧ (block.mk 4096 8).size < 32 := by
  decide

theorem C2_witness :
    freelist.reallocate (linear_ops 8) ⟨16, 64, 8, 4⟩
        ⟨⟨1000, 1000, 1000⟩, [], 0⟩ ⟨4096, 8⟩ 32
      = some (true, ⟨4096, 8⟩, ⟨⟨1000, 1000, 1000⟩, [], 0⟩) :=
  C2_amended_freelist_reallocate (linear_ops 8) ⟨16, 64, 8, 4⟩
    ⟨⟨1000, 1000, 1000⟩, [], 0⟩ ⟨4096, 8⟩ 32 (by decide) (by decide)
    (by decide) (by decide) (by decide)

/-! ## C3: null-block propagation through the affix allocator -/

/-- C3: the affix allocator does *not* propagate the null block.  With an
8-byte prefix over an inner allocator whose `allocate` fails (returns the
null block), `allocate(24)` strips the null block without any null check and
hands the caller `block{ (uint8_t*)nullptr + 8, 0 - 8 - 24 }`, i.e. a
non-null pointer `8` with wrapped size `2^64 - 8` after adding back the
affixed size — not the null block the contract promises. -/
theorem C3_affix_null_propagation_bug :
    affix_allocator.allocate null_ops 8 0 () 24 = some (⟨8, W - 8⟩, ())
    ∧ block.mk 8 (W - 8) ≠ nullblock := by
  decide

/-! ## C4: reallocate-to-zero fast path versus the bucketizer -/

/-- C4 (amended): the shared helper applied first by the other compositors
does turn `reallocate(b, 0)` (with `b.size ≠ 0`) into `deallocate` plus a
`true` return; but the bucketizer checks `isGoodSize(new_size)` *before* the
shared fast paths, so whenever the raider's `min` is positive,
`reallocate(b, 0)` returns `false` and deallocates nothing. -/
theorem C4_amended_zero_size_paths {α : Type} (al : Nat)
    (dealloc : α → block → Option α) (alloc : α → Nat → Option (block × α))
    (a : α) (b : block) (hb : b.size ≠ 0)
    {σ : Type} (I : allocator_ops σ) (rmin rmax : Nat)
    (stepIndex : Nat → Nat) (buckets : List σ) (b2 : block)
    (hmin : 0 < rmin) :
    handle_common_reallocation_cases al dealloc alloc a b 0
      = (dealloc a b).map (fun a2 => some (b, a2))
    ∧ bucketizer.reallocate I rmin rmax stepIndex buckets b2 0
      = some (false, b2, buckets) := by
  constructor
  · have hz : round_to_alignment 0 al = 0 := by
      simp [round_to_alignment]
    rw [handle_common_reallocation_cases, hz, if_neg hb, if_pos rfl]
  · have hcond : ¬ (rmin ≤ 0 ∧ 0 ≤ rmax) := fun hc => by omega
    rw [bucketizer.reallocate, if_pos hcond]

/-- C4 counterexample: a bucketizer over `[8, 24]` with two linear-arena
buckets; `reallocate(b, 0)` on a live 16-byte block returns `false` and
leaves every bucket untouched instead of deallocating. -/
theorem C4_counterexample :
    bucketizer.reallocate (linear_ops 8) 8 24
        (linear_range_raider.step_index 8 24 8)
        [⟨1000, 128, 1016⟩, ⟨2000, 128, 2000⟩] ⟨1000, 16⟩ 0
      = some (false, ⟨1000, 16⟩, [⟨1000, 128, 1016⟩, ⟨2000, 128, 2000⟩]) := by
  decide

theorem C4_witness :
    handle_common_reallocation_cases 8
        (fun s b => some (linear_allocator.deallocate s b))
        (fun s n => some (linear_allocator.allocate 8 s n))
        ⟨1000, 128, 1016⟩ ⟨1000, 16⟩ 0
      = some (some (⟨1000, 16⟩, ⟨1000, 128, 1000⟩))
    ∧ bucketizer.reallocate (linear_ops 8) 8 24
        (linear_range_raider.step_index 8 24 8)
        [⟨1000, 128, 1016⟩] ⟨1000, 16⟩ 0
      = some (false, ⟨1000, 16⟩, [⟨1000, 128, 1016⟩]) := by
  have h := C4_amended_zero_size_paths 8
    (fun s b => some (linear_allocator.deallocate s b))
    (fun s n => some (linear_allocator.allocate 8 s n))
    ⟨1000, 128, 1016⟩ ⟨1000, 16⟩ (by decide)
    (linear_ops 8) 8 24 (linear_range_raider.step_index 8 24 8)
    [⟨1000, 128, 1016⟩] ⟨1000, 16⟩ (by decide)
  refine ⟨?_, h.2⟩
  rw [h.1]
  decide

/-! ## C5: raider step indices and bucket routing -/

theorem details_last_bit_set_eq : ∀ v : Nat, 0 < v →
    details.last_bit_set v = Nat.log 2 v + 1 := by
  intro v
  induction v using Nat.strong_induction_on with
  | _ v ih =>
    intro hv
    rw [details.last_bit_set, dif_neg (Nat.pos_iff_ne_zero.mp hv)]
    by_cases h2 : 2 ≤ v
    · have hv2 : 0 < v / 2 := Nat.div_pos h2 (by decide)
      rw [ih (v / 2) (Nat.div_lt_self hv (by decide)) hv2]
      rw [Nat.log_of_one_lt_of_le (by decide) h2]
      omega
    · have hv1 : v = 1 := by omega
      subst hv1
      simp [details.last_bit_set, Nat.log_one_right]

theorem last_bit_set_eq_log (v : Nat) (hv : 0 < v) :
    last_bit_set v = Nat.log 2 v := by
  rw [last_bit_set, if_pos (Nat.pos_iff_ne_zero.mp hv),
    details_last_bit_set_eq v hv]
  omega

theorem last_bit_set_two_pow (k : Nat) : last_bit_set (2 ^ k) = k := by
  rw [last_bit_set_eq_log _ (Nat.two_pow_pos k)]
  exact Nat.log_pow (by decide) k

theorem two_pow_land_pred (k : Nat) : (2 ^ k) &&& (2 ^ k - 1) = 0 := by
  apply Nat.eq_of_testBit_eq
  intro i
  rw [Nat.testBit_land, Nat.zero_testBit]
  rcases Nat.lt_trichotomy i k with h | h | h
  · rw [Nat.testBit_two_pow_of_ne (Nat.ne_of_lt h).symm]
    simp
  · subst h
    rw [Nat.testBit_two_pow_sub_one]
    simp
  · rw [Nat.testBit_two_pow_of_ne (Nat.ne_of_lt h)]
    simp

theorem is_pow2_two_pow (k : Nat) : is_pow2 (2 ^ k) = true := by
  rw [is_pow2]
  simp [two_pow_land_pred k, Nat.two_pow_pos k]

theorem eq_two_pow_of_is_pow2 (n : Nat) (h : is_pow2 n = true) :
    n = 2 ^ Nat.log 2 n := by
  rw [is_pow2, Bool.and_eq_true, decide_eq_true_eq, decide_eq_true_eq] at h
  obtain ⟨hpos, hland⟩ := h
  by_contra hne
  have hlog := Nat.pow_log_le_self 2 (Nat.pos_iff_ne_zero.mp hpos)
  have hlt : n < 2 ^ (Nat.log 2 n + 1) :=
    Nat.lt_pow_succ_log_self (by decide) n
  set l := Nat.log 2 n with hl
  have hgt : 2 ^ l < n := lt_of_le_of_ne hlog (fun he => hne he.symm)
  have hpow : 2 ^ (l + 1) = 2 ^ l + 2 ^ l := by ring
  have hd1 : n / 2 ^ l = 1 := Nat.div_eq_of_lt_le (by omega) (by omega)
  have hd2 : (n - 1) / 2 ^ l = 1 := Nat.div_eq_of_lt_le (by omega) (by omega)
  have ht1 : n.testBit l = true := by
    rw [Nat.testBit_to_div_mod, hd1]
    simp
  have ht2 : (n - 1).testBit l = true := by
    rw [Nat.testBit_to_div_mod, hd2]
    simp
  have hcontra := congrArg (fun x => x.testBit l) hland
  simp only [Nat.testBit_land, Nat.zero_testBit, ht1, ht2] at hcontra
  simp at hcontra

theorem next_pow2_spec (n : Nat) (hn : 0 < n) :
    ∃ k, next_pow2 n = 2 ^ k ∧ n ≤ 2 ^ k ∧ ∀ b, n ≤ 2 ^ b → k ≤ b := by
  rw [next_pow2]
  by_cases hp : is_pow2 n = true
  · rw [if_pos hp]
    refine ⟨Nat.log 2 n, eq_two_pow_of_is_pow2 n hp,
      (eq_two_pow_of_is_pow2 n hp).le, ?_⟩
    intro b hb
    rw [eq_two_pow_of_is_pow2 n hp] at hb
    exact (Nat.pow_le_pow_iff_right (by decide)).mp hb
  · rw [if_neg hp, last_bit_set_eq_log n hn]
    refine ⟨Nat.log 2 n + 1, rfl,
      (Nat.lt_pow_succ_log_self (by decide) n).le, ?_⟩
    intro b hb
    have hne : n ≠ 2 ^ b := by
      intro he
      rw [he] at hp
      exact hp (is_pow2_two_pow b)
    have hlt : n < 2 ^ b := lt_of_le_of_ne hb hne
    have := Nat.log_lt_of_lt_pow (Nat.pos_iff_ne_zero.mp hn) hlt
    omega

/-- C5 (amended): the raider index is valid and the routing law holds, but
not on all of `[min, max]`: the linear raider's `step_index` is a valid
bucket index only on `[min, max)` — at `n = max` it equals `num_steps`, one
past the last bucket — and the power-of-two raider's `step_index` is valid
only on `(min, max]` — at `n = min` the `size_t` subtraction wraps around.
On those sub-ranges the bucketizer's `allocate(n)` is exactly the selected
bucket's `allocate(n)` (with every other bucket untouched), so it succeeds
iff that bucket allocator succeeds in isolation. -/
theorem C5_amended_step_index_routing :
    (∀ Min Max Step n : Nat, 0 < Step → Step ∣ (Max - Min) → Min ≤ n →
      n < Max →
      linear_range_raider.step_index Min Max Step n
        < linear_range_raider.num_steps Min Max Step)
    ∧ (∀ a b n : Nat, b ≤ 63 → 2 ^ a < n → n ≤ 2 ^ b →
      pow2_range_raider.step_index (2 ^ a) n
        < pow2_range_raider.num_steps (2 ^ a) (2 ^ b))
    ∧ (∀ (σ : Type) (I : allocator_ops σ) (rmin rmax : Nat)
        (stepIndex : Nat → Nat) (buckets : List σ) (n : Nat),
        rmin ≤ n → n ≤ rmax →
        ∀ hidx : stepIndex n < buckets.length,
        bucketizer.allocate I rmin rmax stepIndex buckets n
          = (I.allocate (buckets.get ⟨stepIndex n, hidx⟩) n).map
              fun p => (p.1, buckets.set (stepIndex n) p.2)) := by
  refine ⟨?_, ?_, ?_⟩
  · intro Min Max Step n hs hd h1 h2
    rw [linear_range_raider.step_index, if_pos ⟨h1, Nat.le_of_lt h2⟩,
      linear_range_raider.num_steps]
    exact Nat.div_lt_div_of_lt_of_dvd hd (by omega)
  · intro a b n hb hlo hhi
    have hn : 0 < n := Nat.lt_of_le_of_lt (Nat.zero_le _) hlo
    obtain ⟨k, hnp, hnk, hmin⟩ := next_pow2_spec n hn
    have hka : a < k := by
      have h2 : 2 ^ a < 2 ^ k := Nat.lt_of_lt_of_le hlo hnk
      exact (Nat.pow_lt_pow_iff_right (by decide)).mp h2
    have hkb : k ≤ b := hmin b hhi
    have h63 : (63 : Nat) < W := by decide
    rw [pow2_range_raider.step_index, pow2_range_raider.num_steps, hnp,
      last_bit_set_two_pow, last_bit_set_two_pow, last_bit_set_two_pow]
    rw [sub64_eq_sub k a (Nat.le_of_lt hka) (by omega)]
    rw [sub64_eq_sub (k - a) 1 (by omega) (by omega)]
    omega
  · intro σ I rmin rmax stepIndex buckets n h1 h2 hidx
    rw [bucketizer.allocate, if_pos ⟨h1, h2⟩, dif_pos hidx]

/-- C5 counterexample: with the linear raider over `[8, 24]`, step 8,
`step_index(24) = num_steps = 2`, so `allocate(24)` indexes one past the
bucket array (undefined behaviour, `none` in the model); with the
power-of-two raider over `[8, 32]`, `step_index(8)` wraps to `2^64 - 1`. -/
theorem C5_counterexample :
    (linear_range_raider.step_index 8 24 8 24
      = linear_range_raider.num_steps 8 24 8
    ∧ ¬ linear_range_raider.step_index 8 24 8 24
      < linear_range_raider.num_steps 8 24 8
    ∧ bucketizer.allocate (linear_ops 8) 8 24
        (linear_range_raider.step_index 8 24 8)
        [⟨1000, 128, 1000⟩, ⟨2000, 128, 2000⟩] 24 = none)
    ∧ (pow2_range_raider.step_index 8 8 = W - 1
    ∧ ¬ pow2_range_raider.step_index 8 8
      < pow2_range_raider.num_steps 8 32) := by
  constructor
  · exact ⟨by decide, by decide, by decide⟩
  · have hp8 : is_pow2 8 = true := by
      have h8 : (8 : Nat) = 2 ^ 3 := by norm_num
      rw [h8]
      exact is_pow2_two_pow 3
    have hnext : next_pow2 8 = 8 := by
      rw [next_pow2, if_pos hp8]
    have hl8 : last_bit_set 8 = 3 := by
      have h8 : (8 : Nat) = 2 ^ 3 := by norm_num
      rw [h8]
      exact last_bit_set_two_pow 3
    have hl32 : last_bit_set 32 = 5 := by
      have h32 : (32 : Nat) = 2 ^ 5 := by norm_num
      rw [h32]
      exact last_bit_set_two_pow 5
    constructor
    · rw [pow2_range_raider.step_index, hnext, hl8]
      decide
    · rw [pow2_range_raider.step_index, pow2_range_raider.num_steps, hnext,
        hl8, hl32]
      decide

theorem C5_witness :
    linear_range_raider.step_index 8 24 8 16
      < linear_range_raider.num_steps 8 24 8
    ∧ pow2_range_raider.step_index (2 ^ 3) 16
      < pow2_range_raider.num_steps (2 ^ 3) (2 ^ 5)
    ∧ bucketizer.allocate (linear_ops 8) 8 24 (fun _ => 0)
        [⟨1000, 128, 1000⟩] 16
      = (Option.map (fun p => (p.1,
          ([⟨1000, 128, 1000⟩] : List linear_state).set 0 p.2))
          ((linear_ops 8).allocate
            (([⟨1000, 128, 1000⟩] : List linear_state).get ⟨0, by decide⟩)
            16)) := by
  have h := C5_amended_step_index_routing
  exact ⟨h.1 8 24 8 16 (by decide) (by decide) (by decide) (by decide),
    h.2.1 3 5 16 (by decide) (by decide) (by decide),
    h.2.2 linear_state (linear_ops 8) 8 24 (fun _ => 0)
      [⟨1000, 128, 1000⟩] 16 (by decide) (by decide) (by decide)⟩

/-! ## C7: free-list recycling round-trip -/

/-- C7 (amended): if the list is below `_MaxNodeCount` and `deallocate(b)`
recycles a `max`-sized block, then the next `allocate(n)` returns a block
with base exactly `b.ptr` and size `max` — provided the *aligned* request
`round_to_alignment(n, alignment)` still lies in `[min, max]` (which for
`n ∈ [min, max]` holds whenever `max` is a multiple of the alignment, but
can fail otherwise, sending the request to the inner allocator instead). -/
theorem C7_amended_freelist_recycling {σ : Type} (I : allocator_ops σ)
    (P : freelist_params) (s : freelist_state σ) (b : block) (n : Nat)
    (hcap : s.currentNodeCount < P.maxNodeCount)
    (hsize : b.size = P.max_size)
    (hmin : P.min_size ≤ round_to_alignment n I.alignment)
    (hmax : round_to_alignment n I.alignment ≤ P.max_size) :
    freelist.deallocate I P s b
      = some ⟨s.inner, b.ptr :: s.pHead, s.currentNodeCount + 1⟩
    ∧ freelist.allocate I P
        ⟨s.inner, b.ptr :: s.pHead, s.currentNodeCount + 1⟩ n
      = some (⟨b.ptr, P.max_size⟩, ⟨s.inner, s.pHead, s.currentNodeCount⟩) := by
  constructor
  · rw [freelist.deallocate, if_pos ⟨Nat.ne_of_lt hcap, hsize⟩]
  · simp only [freelist.allocate]
    rw [if_pos ⟨hmin, hmax⟩]
    simp [Nat.add_sub_cancel]

/-- C7 counterexample: free-list over `[16, 60]` (max not 8-aligned) above a
linear arena.  After recycling a 60-byte block at address 500, `allocate(57)`
with `57 ∈ [16, 60]` rounds to 64, misses the range, and returns a fresh
inner-arena block at base 1000 — not at `b.ptr = 500`. -/
theorem C7_counterexample :
    freelist.deallocate (linear_ops 8) ⟨16, 60, 8, 4⟩
        ⟨⟨1000, 1000, 1000⟩, [], 0⟩ ⟨500, 60⟩
      = some ⟨⟨1000, 1000, 1000⟩, [500], 1⟩
    ∧ freelist.allocate (linear_ops 8) ⟨16, 60, 8, 4⟩
        ⟨⟨1000, 1000, 1000⟩, [500], 1⟩ 57
      = some (⟨1000, 64⟩, ⟨⟨1000, 1000, 1064⟩, [500], 1⟩)
    ∧ (16 ≤ 57 ∧ 57 ≤ 60) ∧ (1000 : Nat) ≠ 500 := by
  decide

theorem C7_witness :
    freelist.deallocate (linear_ops 8) ⟨16, 64, 8, 4⟩
        ⟨⟨1000, 1000, 1000⟩, [], 0⟩ ⟨500, 64⟩
      = some ⟨⟨1000, 1000, 1000⟩, [500], 1⟩
    ∧ freelist.allocate (linear_ops 8) ⟨16, 64, 8, 4⟩
        ⟨⟨1000, 1000, 1000⟩, [500], 1⟩ 48
      = some (⟨500, 64⟩, ⟨⟨1000, 1000, 1000⟩, [], 0⟩) :=
  C7_amended_freelist_recycling (linear_ops 8) ⟨16, 64, 8, 4⟩
    ⟨⟨1000, 1000, 1000⟩, [], 0⟩ ⟨500, 64⟩ 48 (by decide) (by decide)
    (by decide) (by decide)

/-! ## C8: cascading deallocateAll -/

theorem eraseNodes_linear_total (A k : Nat) :
    ∀ tail : List (cascading_node linear_state),
      cascading_allocator.eraseNodes (linear_ops A) k tail = some () := by
  intro tail
  induction tail with
  | nil => rfl
  | cons n rest ih =>
    show Option.bind (cascading_allocator.eraseNodes (linear_ops A) k rest)
      (fun _ => Option.bind
        ((linear_ops A).deallocate n.allocator ⟨n.addr, k⟩)
        (fun _ => some ())) = some ()
    rw [ih]
    rfl

/-- C8 (amended): on a *non-empty* cascading allocator over a linear arena,
`deallocateAll()` erases every tail node, resets the head node's inner
allocator, re-allocates `sizeof(node)` bytes from the emptied arena (landing
at the buffer base) and keeps exactly that one node: the list length is 1.
On an allocator on which no allocation has ever been made (`pHead_ == nullptr`),
however, the call returns immediately and the list stays *empty*. -/
theorem C8_amended_deallocateAll_single_node
    (nodeAllocatedSize nodeSize : Nat)
    (head : cascading_node linear_state)
    (tail : List (cascading_node linear_state))
    (hfit : round_to_alignment nodeSize 8 ≤ head.allocator.bufSize)
    (hbase : 0 < head.allocator.base) :
    cascading_allocator.deallocateAll (linear_ops 8) nodeAllocatedSize
        nodeSize (head :: tail)
      = some [⟨⟨head.allocator.base, head.allocator.bufSize,
          head.allocator.base + round_to_alignment nodeSize 8⟩,
          head.allocator.base⟩] := by
  rw [cascading_allocator.deallocateAll]
  rw [eraseNodes_linear_total 8 nodeAllocatedSize tail]
  simp only [linear_ops, Option.bind_eq_bind, Option.some_bind,
    linear_allocator.deallocateAll, linear_allocator.allocate]
  rw [if_pos (by omega : head.allocator.base + round_to_alignment nodeSize 8
    ≤ head.allocator.base + head.allocator.bufSize)]
  simp only [Option.some_bind]
  rw [if_neg (by omega : ¬ head.allocator.base = 0)]

/-- C8 counterexample: on a cascading allocator on which no allocation has
ever been made, `deallocateAll()` leaves the node list empty — its length is
0, not 1 as the claim demands for every state. -/
theorem C8_counterexample :
    cascading_allocator.deallocateAll (linear_ops 8) 16 16
        ([] : List (cascading_node linear_state)) = some []
    ∧ ([] : List (cascading_node linear_state)).length ≠ 1 := by
  decide

theorem C8_witness :
    cascading_allocator.deallocateAll (linear_ops 8) 16 16
        [⟨⟨1000, 128, 1040⟩, 1000⟩, ⟨⟨2000, 128, 2016⟩, 2000⟩]
      = some [⟨⟨1000, 128, 1016⟩, 1000⟩] :=
  C8_amended_deallocateAll_single_node 16 16 ⟨⟨1000, 128, 1040⟩, 1000⟩
    [⟨⟨2000, 128, 2016⟩, 2000⟩] (by decide) (by decide)

/-! ## C10: segregator routing by recorded size -/

/-- C10: the segregator routes purely by the block's recorded size, never by
which inner allocator produced the block: `deallocate` invokes exactly the
small allocator iff `b.size ≤ threshold` (leaving the other side's state
untouched) and the large one otherwise; `owns` queries exactly that one
side; and when none of the shared fast paths applies, `reallocate` decides
the block's current home by the same `b.size ≤ threshold` test in all four
quadrants (delegating in place on the same side, or moving the block across
with allocate-copy-deallocate between the two sides). -/
theorem C10_segregator_size_routing {σ₁ σ₂ : Type}
    (I1 : allocator_ops σ₁) (I2 : allocator_ops σ₂) (threshold : Nat)
    (s1 : σ₁) (s2 : σ₂) (b : block) (newSize : Nat) :
    (b.size ≤ threshold →
      segregator.deallocate I1 I2 threshold s1 s2 b
        = (I1.deallocate s1 b).map (fun s1b => (s1b, s2))
      ∧ segregator.owns I1 I2 threshold s1 s2 b = I1.owns s1 b)
    ∧ (threshold < b.size →
      segregator.deallocate I1 I2 threshold s1 s2 b
        = (I2.deallocate s2 b).map (fun s2b => (s1, s2b))
      ∧ segregator.owns I1 I2 threshold s1 s2 b = I2.owns s2 b)
    ∧ (b.size ≠ round_to_alignment newSize (Nat.max I1.alignment I2.alignment) →
      newSize ≠ 0 → b.ptr ≠ 0 →
      (b.size ≤ threshold → newSize ≤ threshold →
        segregator.reallocate I1 I2 threshold s1 s2 b newSize
          = (I1.reallocate s1 b newSize).map fun r => (r.1, r.2.1, r.2.2, s2))
      ∧ (b.size ≤ threshold → threshold < newSize →
        segregator.reallocate I1 I2 threshold s1 s2 b newSize
          = Option.bind (I2.allocate s2 newSize) fun p =>
              if p.1.ptr = 0 then some (false, b, s1, p.2)
              else (I1.deallocate s1 b).map fun s1b => (true, p.1, s1b, p.2))
      ∧ (threshold < b.size → newSize ≤ threshold →
        segregator.reallocate I1 I2 threshold s1 s2 b newSize
          = Option.bind (I1.allocate s1 newSize) fun p =>
              if p.1.ptr = 0 then some (false, b, p.2, s2)
              else (I2.deallocate s2 b).map fun s2b => (true, p.1, p.2, s2b))
      ∧ (threshold < b.size → threshold < newSize →
        segregator.reallocate I1 I2 threshold s1 s2 b newSize
          = (I2.reallocate s2 b newSize).map fun r => (r.1, r.2.1, s1, r.2.2))) := by
  refine ⟨?_, ?_, ?_⟩
  · intro hsmall
    constructor
    · rw [segregator.deallocate, if_pos hsmall]
    · rw [segregator.owns, if_pos hsmall]
  · intro hlarge
    constructor
    · rw [segregator.deallocate, if_neg (by omega)]
    · rw [segregator.owns, if_neg (by omega)]
  · intro h1 h2 h3
    have hcommon : handle_common_reallocation_cases
        (Nat.max I1.alignment I2.alignment)
        (fun p b => segregator.deallocate I1 I2 threshold p.1 p.2 b)
        (fun p n => segregator.allocate I1 I2 threshold p.1 p.2 n)
        (s1, s2) b newSize = some none := by
      rw [handle_common_reallocation_cases, if_neg h1, if_neg h2, if_neg h3]
    refine ⟨?_, ?_, ?_, ?_⟩
    · intro hb hn
      rw [segregator.reallocate, hcommon, if_pos hb, if_pos hn]
    · intro hb hn
      rw [segregator.reallocate, hcommon, if_pos hb, if_neg (by omega)]
      rfl
    · intro hb hn
      rw [segregator.reallocate, hcommon, if_neg (by omega), if_pos hn]
      rfl
    · intro hb hn
      rw [segregator.reallocate, hcommon, if_neg (by omega), if_neg (by omega)]

theorem C10_witness :
    segregator.deallocate (linear_ops 8) (linear_ops 8) 128
        ⟨1000, 128, 1016⟩ ⟨2000, 1024, 2016⟩ ⟨1000, 16⟩
      = some (⟨1000, 128, 1000⟩, ⟨2000, 1024, 2016⟩)
    ∧ segregator.reallocate (linear_ops 8) (linear_ops 8) 128
        ⟨1000, 128, 1016⟩ ⟨2000, 1024, 2016⟩ ⟨1000, 16⟩ 200
      = some (true, ⟨2016, 200⟩, ⟨1000, 128, 1000⟩, ⟨2000, 1024, 2216⟩) := by
  have h := C10_segregator_size_routing (linear_ops 8) (linear_ops 8) 128
    ⟨1000, 128, 1016⟩ ⟨2000, 1024, 2016⟩ ⟨1000, 16⟩ 200
  constructor
  · rw [(h.1 (by decide)).1]
    decide
  · rw [(h.2.2 (by decide) (by decide) (by decide)).2.1 (by decide) (by decide)]
    decide

/-! ## C6: linear arena deallocation -/

/-- C6: for the linear arena, `deallocate(b)` rewinds the cursor to `b.ptr`
exactly when `b.ptr + b.size` equals the current cursor; for every other
block the call is a silent no-op leaving the whole allocator state (cursor
and buffer alike) unchanged. -/
theorem C6_linear_deallocate_last_block (s : linear_state) (b : block) :
    (b.ptr + b.size = s.cur →
      linear_allocator.deallocate s b = ⟨s.base, s.bufSize, b.ptr⟩)
    ∧ (b.ptr + b.size ≠ s.cur → linear_allocator.deallocate s b = s) := by
  constructor
  · intro h
    simp [linear_allocator.deallocate, linear_allocator.isLastAllocatedBlock, h]
  · intro h
    simp [linear_allocator.deallocate, linear_allocator.isLastAllocatedBlock, h]

theorem C6_witness :
    linear_allocator.deallocate ⟨1000, 128, 1016⟩ ⟨1000, 16⟩ = ⟨1000, 128, 1000⟩
    ∧ linear_allocator.deallocate ⟨1000, 128, 1016⟩ ⟨1000, 8⟩ = ⟨1000, 128, 1016⟩ :=
  ⟨(C6_linear_deallocate_last_block ⟨1000, 128, 1016⟩ ⟨1000, 16⟩).1 (by decide),
   (C6_linear_deallocate_last_block ⟨1000, 128, 1016⟩ ⟨1000, 8⟩).2 (by decide)⟩

end abb
